import Mathlib
/-!
# Verification of the dmtt scoring / anti-cheat core

Shallow embedding of the typing-practice server's scoring engine
(`typing-engine`), server-side validation (`validation.server`), session
manager (`session.server`), rate limiter (`rate-limit.server`) and the
score-submission action, together with proofs of the specified properties.

Modelling conventions:
* A JavaScript string is a sequence of UTF-16 code units, modelled as
  `List ℕ`.  Indexing (`s[i]`), `charCodeAt(0)` on a one-character slice,
  and `===` on such slices are all code-unit operations.
* JavaScript numbers are modelled as exact rationals `ℚ` (timestamps in
  milliseconds as `ℤ`).  `Math.round` rounds half toward positive
  infinity, i.e. `⌊x + 1/2⌋`.
* The in-memory `Map`s are modelled as association lists; `Date.now()` is
  passed in explicitly as a parameter `now`.
-/
/-- A JavaScript string: its sequence of UTF-16 code units. -/
abbrev JsStr := List ℕ
/-- JS `Math.round`: rounds half toward +∞ (`Math.round(-0.5) = 0`),
so `Math.round x = ⌊x + 1/2⌋`.  Uses `Rat.floor` so that concrete
evaluations reduce in the kernel. -/
def jsRound (q : ℚ) : ℤ := Rat.floor (q + 1/2)
/-- `Math.round (q * 10) / 10`: round to one decimal place, as used by
`calculateAccuracy`, `calculateCPM` and `calculateWPM`. -/
def round1 (q : ℚ) : ℚ := (jsRound (q * 10) : ℚ) / 10
/-- Truthiness of a JS string: the empty string is falsy. -/
def jsTruthy (s : JsStr) : Bool := !s.isEmpty
/-- Truthiness of an optional JS string (`undefined`/absent is falsy,
and so is the empty string). -/
def jsTruthyOpt : Option JsStr → Bool
  | none => false
  | some s => jsTruthy s
/-- Truthiness of an optional JS number (`undefined` and `0` are falsy). -/
def jsTruthyNum : Option ℤ → Bool
  | none => false
  | some t => t != 0
/-- JS `x || 0` for an optional number field. -/
def jsOrZero (o : Option ℚ) : ℚ := o.getD 0
/-- The code units matched by the JS regexp class `\s`, which is also
exactly the set stripped by `String.prototype.trim` (WhiteSpace plus
LineTerminator). -/
def isJsWhitespace (u : ℕ) : Bool :=
  u == 9 || u == 10 || u == 11 || u == 12 || u == 13 || u == 32 ||
  u == 0xA0 || u == 0x1680 || (0x2000 ≤ u && u ≤ 0x200A) ||
  u == 0x2028 || u == 0x2029 || u == 0x202F || u == 0x205F ||
  u == 0x3000 || u == 0xFEFF
/-- JS `String.prototype.trim`. -/
def jsTrim (s : JsStr) : JsStr :=
  ((s.dropWhile isJsWhitespace).reverse.dropWhile isJsWhitespace).reverse
/-!
## Typing engine (`typing-engine.ts`)
-/
/-- `decomposeKorean`: decompose a Hangul syllable (code unit in
`0xAC00 ‥ 0xD7A3`) into its (initial, medial, final) jamo indices;
`none` for any other code unit.  `Math.floor` on the nonnegative
quotients is natural-number division. -/
def decomposeKorean (u : ℕ) : Option (ℕ × ℕ × ℕ) :=
  if u < 0xAC00 ∨ u > 0xD7A3 then none
  else
    let index := u - 0xAC00
    some (index / 28 / 21, (index / 28) % 21, index % 28)
/-- `getKoreanKeystrokes`: 3 keystrokes for a Hangul syllable with a
final jamo, 2 without, 1 for any non-Hangul code unit. -/
def getKoreanKeystrokes (u : ℕ) : ℕ :=
  match decomposeKorean u with
  | none => 1
  | some (_, _, jong) => if jong > 0 then 3 else 2
/-- `compareChars original typed = (correct, total)`.

Mirrors `compareChars` of the typing engine: line breaks score nothing;
two Hangul syllables are compared jamo by jamo (final only when the
original has one); otherwise the comparison is whole-character equality
worth one keystroke. -/
def compareChars (original typed : ℕ) : ℕ × ℕ :=
  if original = 10 ∨ typed = 10 then (0, 0)
  else
    match decomposeKorean original, decomposeKorean typed with
    | some (ocho, ojung, ojong), some (tcho, tjung, tjong) =>
      let correct :=
        (if ocho = tcho then 1 else 0) +
        (if ojung = tjung then 1 else 0) +
        (if ojong > 0 then (if ojong = tjong then 1 else 0) else 0)
      let total := 2 + (if ojong > 0 then 1 else 0)
      (correct, total)
    | _, _ => ((if original = typed then 1 else 0), 1)
/-- `originalText[i]` / `typedText[i]`: `none` models the out-of-range
access that JS turns into the falsy `''` via `|| ''`. -/
def charAt (s : JsStr) (i : ℕ) : Option ℕ := s.get? i
/-- Possible keystrokes contributed by position `i` of the reference
text in `calculateTypingStats`: skipped when absent or a line break. -/
def possibleAt (oc : Option ℕ) : ℕ :=
  match oc with
  | some u => if u ≠ 10 then getKoreanKeystrokes u else 0
  | none => 0
/-- Correct keystrokes contributed by position `i` in
`calculateTypingStats`: skipped when the typed character is absent or a
line break; otherwise `compareChars` against the reference character.
When the reference character is absent (`''`), `charCodeAt` yields `NaN`
inside `decomposeKorean`, every `NaN` comparison is false, and the JS
code returns 0 correct keystrokes in all cases, so the contribution is 0. -/
def correctAt (oc tc : Option ℕ) : ℕ :=
  match tc with
  | some v =>
    if v ≠ 10 then
      match oc with
      | some u => (compareChars u v).1
      | none => 0
    else 0
  | none => 0
/-- The accumulated `totalPossibleKeystrokes` of the main loop of
`calculateTypingStats` (positions `0 ‥ max length - 1`). -/
def totalPossibleKeystrokes (originalText typedText : JsStr) : ℕ :=
  ((List.range (max originalText.length typedText.length)).map
    (fun i => possibleAt (charAt originalText i))).sum
/-- The accumulated `totalCorrectKeystrokes` of the main loop of
`calculateTypingStats`. -/
def totalCorrectKeystrokes (originalText typedText : JsStr) : ℕ :=
  ((List.range (max originalText.length typedText.length)).map
    (fun i => correctAt (charAt originalText i) (charAt typedText i))).sum
/-- `calculateAccuracy`: percentage of correct keystrokes, one decimal,
100 when there is nothing to type. -/
def calculateAccuracy (correctChars totalChars : ℕ) : ℚ :=
  if totalChars = 0 then 100
  else round1 ((correctChars : ℚ) / (totalChars : ℚ) * 100)
/-- `calculateCPM`: characters per minute, one decimal, 0 at zero time. -/
def calculateCPM (totalChars : ℕ) (timeInSeconds : ℚ) : ℚ :=
  if timeInSeconds = 0 then 0
  else round1 ((totalChars : ℚ) / (timeInSeconds / 60))
/-- `calculateWPM`: words per minute (5 characters per word). -/
def calculateWPM (totalChars : ℕ) (timeInSeconds : ℚ) : ℚ :=
  if timeInSeconds = 0 then 0
  else round1 (((totalChars : ℚ) / 5) / (timeInSeconds / 60))
/-- `calculateScore`: `Math.round (accuracy * cpm)`. -/
def calculateScore (accuracy cpm : ℚ) : ℚ := (jsRound (accuracy * cpm) : ℚ)
/-- The three practice modes. -/
inductive Mode
  | short
  | long
  | venice
deriving DecidableEq, Repr
/-- The `TypingStats` record returned by `calculateTypingStats`. -/
structure TypingStats where
  totalChars : ℕ
  correctChars : ℕ
  accuracy : ℚ
  timeElapsed : ℚ
  cpm : ℚ
  wpm : ℚ
  score : ℚ
deriving DecidableEq, Repr
/-- `calculateTypingStats`: the full server-side statistics computation.
CPM/WPM count correct keystrokes only; the returned `cpm`/`wpm` are
rounded to integers; short/long score is the rounded CPM, venice score
is `Math.round (accuracy * cpm)` on the unrounded one-decimal CPM. -/
def calculateTypingStats (originalText typedText : JsStr)
    (timeInSeconds : ℚ) (mode : Mode) : TypingStats :=
  let c := totalCorrectKeystrokes originalText typedText
  let p := totalPossibleKeystrokes originalText typedText
  let accuracy := calculateAccuracy c p
  let cpm := calculateCPM c timeInSeconds
  let wpm := calculateWPM c timeInSeconds
  let score : ℚ :=
    if mode = Mode.short ∨ mode = Mode.long then (jsRound cpm : ℚ)
    else calculateScore accuracy cpm
  { totalChars := typedText.length
    correctChars := c
    accuracy := accuracy
    timeElapsed := timeInSeconds
    cpm := (jsRound cpm : ℚ)
    wpm := (jsRound wpm : ℚ)
    score := score }
/-!
## Server-side validation (`validation.server.ts`)

The repository carries two revisions of `validateName`; the one embedded
here is the current revision (width-weighted 16-unit cap, dots and
hyphens allowed).  `validateScore` and `validateText` are identical in
both revisions.
-/
/-- The identity of an error message pushed by `validateScore`. -/
inductive ScoreErr
  | timeTooShort
  | accuracyRange
  | cpmRange
  | accuracyMismatch
  | cpmMismatch
  | scoreMismatch
deriving DecidableEq, Repr
/-- The identity of an error message pushed by `validateText`. -/
inductive TextErr
  | empty
  | tooLong
deriving DecidableEq, Repr
/-- The identity of an error message pushed by `validateName`. -/
inductive NameErr
  | required
  | invalidChars
  | tooLong
deriving DecidableEq, Repr
/-- A `ValidationResult`, with error messages replaced by their
identities. -/
structure ValidationResult (ε : Type) where
  valid : Bool
  errors : List ε
deriving DecidableEq, Repr
/-- `validateScore`: recompute the statistics server-side and compare the
submitted accuracy / CPM / score against them (absolute ±1 point for
accuracy, ±1% of the recomputed value for CPM and score), with
independent range checks on time, accuracy and CPM. -/
def validateScore (originalText typedText : JsStr)
    (timeElapsed submittedScore submittedAccuracy submittedCPM : ℚ)
    (mode : Mode) : ValidationResult ScoreErr :=
  let calculatedStats := calculateTypingStats originalText typedText timeElapsed mode
  let accuracyTolerance : ℚ := 1
  let cpmTolerance := calculatedStats.cpm * (1/100)
  let scoreTolerance := calculatedStats.score * (1/100)
  let errors : List ScoreErr :=
    (if timeElapsed < 1 then [ScoreErr.timeTooShort] else []) ++
    (if submittedAccuracy < 0 ∨ submittedAccuracy > 100 then [ScoreErr.accuracyRange] else []) ++
    (if submittedCPM < 0 ∨ submittedCPM > 2000 then [ScoreErr.cpmRange] else []) ++
    (if |submittedAccuracy - calculatedStats.accuracy| > accuracyTolerance then
      [ScoreErr.accuracyMismatch] else []) ++
    (if |submittedCPM - calculatedStats.cpm| > cpmTolerance then
      [ScoreErr.cpmMismatch] else []) ++
    (if |submittedScore - calculatedStats.score| > scoreTolerance then
      [ScoreErr.scoreMismatch] else [])
  { valid := errors.isEmpty, errors := errors }
/-- `validateText` (default `maxLength` 10000): non-empty after trimming
and not longer than `maxLength`. -/
def validateText (text : JsStr) (maxLength : ℕ := 10000) : ValidationResult TextErr :=
  let errors : List TextErr :=
    (if text = [] ∨ jsTrim text = [] then [TextErr.empty] else []) ++
    (if text.length > maxLength then [TextErr.tooLong] else [])
  { valid := errors.isEmpty, errors := errors }
/-- `calculateNameLength`: display weight of a name (Hangul syllables
weigh 2, everything else 1). -/
def calculateNameLength (name : JsStr) : ℕ :=
  (name.map (fun u => if 0xAC00 ≤ u ∧ u ≤ 0xD7A3 then 2 else 1)).sum
/-- A code unit matched by the name whitelist regexp
`[가-힣a-zA-Z0-9\s.\-]` (Hangul syllables, ASCII letters and digits,
whitespace, dot, hyphen). -/
def isValidNameChar (u : ℕ) : Bool :=
  (0xAC00 ≤ u && u ≤ 0xD7A3) || (97 ≤ u && u ≤ 122) || (65 ≤ u && u ≤ 90) ||
  (48 ≤ u && u ≤ 57) || isJsWhitespace u || u == 46 || u == 45
/-- `validateName`: non-empty after trimming, whitelisted characters
only (regexp `^[가-힣a-zA-Z0-9\s.\-]+$` on the trimmed name), and display
weight of the trimmed name at most 16. -/
def validateName (name : JsStr) : ValidationResult NameErr :=
  let trimmed := jsTrim name
  let errors : List NameErr :=
    (if name = [] ∨ trimmed = [] then [NameErr.required] else []) ++
    (if !(jsTruthy trimmed && trimmed.all isValidNameChar) then [NameErr.invalidChars] else []) ++
    (if calculateNameLength trimmed > 16 then [NameErr.tooLong] else [])
  { valid := errors.isEmpty, errors := errors }
/-!
## Association-list model of the in-memory `Map`s
-/
/-- `Map.get`. -/
def lookupA {α : Type} : List (JsStr × α) → JsStr → Option α
  | [], _ => none
  | (k, v) :: rest, key => if k = key then some v else lookupA rest key
/-- `Map.set`: replace the entry if the key is present, append otherwise. -/
def insertA {α : Type} : List (JsStr × α) → JsStr → α → List (JsStr × α)
  | [], key, v => [(key, v)]
  | (k, w) :: rest, key, v =>
    if k = key then (key, v) :: rest else (k, w) :: insertA rest key v
/-- `Map.delete`. -/
def eraseA {α : Type} : List (JsStr × α) → JsStr → List (JsStr × α)
  | [], _ => []
  | (k, w) :: rest, key => if k = key then rest else (k, w) :: eraseA rest key
/-!
## Session manager (`session.server.ts`)
-/
/-- A practice `Session`.  Timestamps are milliseconds since the epoch. -/
structure Session where
  token : JsStr
  name : Option JsStr
  createdAt : ℤ
  expiresAt : ℤ
  submissionCount : ℕ
  lastSubmissionAt : Option ℤ
  type : Mode
deriving DecidableEq, Repr
/-- The in-memory session map. -/
abbrev SessionStore := List (JsStr × Session)
def SESSION_DURATION : ℤ := 1000 * 60 * 60
def MAX_SUBMISSIONS_PER_SESSION : ℕ := 100
def MIN_SUBMISSION_INTERVAL : ℤ := 2000
/-- `cleanupExpiredSessions`: drop every session whose expiry has passed. -/
def cleanupExpiredSessions (st : SessionStore) (now : ℤ) : SessionStore :=
  st.filter (fun e => !(decide (now > e.2.expiresAt)))
/-- `createSession`: insert a fresh session (the random UUID is passed in
as `token`), then sweep expired sessions, as the source does. -/
def createSession (st : SessionStore) (now : ℤ) (token : JsStr) (type : Mode) :
    Session × SessionStore :=
  let session : Session :=
    { token := token
      name := none
      createdAt := now
      expiresAt := now + SESSION_DURATION
      submissionCount := 0
      lastSubmissionAt := none
      type := type }
  (session, cleanupExpiredSessions (insertA st token session) now)
/-- `validateSession`: look the token up; delete and report `none` when
past expiry. -/
def validateSession (st : SessionStore) (now : ℤ) (token : JsStr) :
    Option Session × SessionStore :=
  match lookupA st token with
  | none => (none, st)
  | some session =>
    if now > session.expiresAt then (none, eraseA st token)
    else (some session, st)
/-- `canSubmit`: deny at the per-session submission cap, or within the
minimum interval since the last submission (`lastSubmissionAt` is tested
for truthiness, so a 0 timestamp would be skipped, as in JS). -/
def canSubmit (session : Session) (now : ℤ) : Bool :=
  if session.submissionCount ≥ MAX_SUBMISSIONS_PER_SESSION then false
  else if jsTruthyNum session.lastSubmissionAt then
    if now - session.lastSubmissionAt.getD 0 < MIN_SUBMISSION_INTERVAL then false
    else true
  else true
/-- `recordSubmission`: fail on an unknown token; otherwise bump the
count, stamp the time, and set the name only when one is supplied and
the session has none yet. -/
def recordSubmission (st : SessionStore) (now : ℤ) (token : JsStr)
    (name : Option JsStr) : Bool × SessionStore :=
  match lookupA st token with
  | none => (false, st)
  | some session =>
    let session1 :=
      { session with
          submissionCount := session.submissionCount + 1
          lastSubmissionAt := some now }
    let session2 :=
      if jsTruthyOpt name && !jsTruthyOpt session.name then
        { session1 with name := name }
      else session1
    (true, insertA st token session2)
/-!
## Rate limiter (`rate-limit.server.ts`)
-/
/-- A fixed-window rate-limit bucket. -/
structure RateLimitEntry where
  count : ℕ
  resetAt : ℤ
deriving DecidableEq, Repr
/-- The result of a rate-limit check. -/
structure RateLimitResult where
  allowed : Bool
  remaining : ℤ
  resetAt : ℤ
deriving DecidableEq, Repr
/-- One of the three in-memory bucket maps. -/
abbrev RateLimitStore := List (JsStr × RateLimitEntry)
def IP_LIMIT : ℕ := 10
def IP_WINDOW : ℤ := 60 * 1000
def NAME_LIMIT : ℕ := 50
def NAME_WINDOW : ℤ := 60 * 60 * 1000
def SESSION_LIMIT : ℕ := 3
def SESSION_WINDOW : ℤ := 60 * 1000
/-- `checkLimit`: create/reset the bucket with count 1 when absent or
expired; deny unchanged at the limit; increment and allow otherwise.
The source's single `!entry || now > entry.resetAt` test is split into
the `none` branch and the first `if`. -/
def checkLimit (m : RateLimitStore) (now : ℤ) (key : JsStr)
    (limit : ℕ) (window : ℤ) : RateLimitResult × RateLimitStore :=
  match lookupA m key with
  | none =>
    (⟨true, (limit : ℤ) - 1, now + window⟩,
      insertA m key ⟨1, now + window⟩)
  | some entry =>
    if now > entry.resetAt then
      (⟨true, (limit : ℤ) - 1, now + window⟩,
        insertA m key ⟨1, now + window⟩)
    else if entry.count ≥ limit then
      (⟨false, 0, entry.resetAt⟩, m)
    else
      (⟨true, (limit : ℤ) - (entry.count + 1 : ℕ), entry.resetAt⟩,
        insertA m key ⟨entry.count + 1, entry.resetAt⟩)
/-- ASCII lower-casing of one code unit.  On the alphabet that reaches
the name limiter (whitelisted by `validateName`) this agrees with JS
`toLowerCase`. -/
def asciiToLower (u : ℕ) : ℕ := if 65 ≤ u ∧ u ≤ 90 then u + 32 else u
/-- The name normalization of `checkNameRateLimit`: trim + lower-case. -/
def normalizeName (name : JsStr) : JsStr := (jsTrim name).map asciiToLower
/-- `checkIpRateLimit`: 10 requests per minute per address. -/
def checkIpRateLimit (m : RateLimitStore) (now : ℤ) (ip : JsStr) :
    RateLimitResult × RateLimitStore :=
  checkLimit m now ip IP_LIMIT IP_WINDOW
/-- `checkNameRateLimit`: 50 requests per hour per normalized name. -/
def checkNameRateLimit (m : RateLimitStore) (now : ℤ) (name : JsStr) :
    RateLimitResult × RateLimitStore :=
  checkLimit m now (normalizeName name) NAME_LIMIT NAME_WINDOW
/-- `checkSessionCreationLimit`: 3 session creations per minute per
address. -/
def checkSessionCreationLimit (m : RateLimitStore) (now : ℤ) (ip : JsStr) :
    RateLimitResult × RateLimitStore :=
  checkLimit m now ip SESSION_LIMIT SESSION_WINDOW
/-!
## Score-submission pipeline (the `action` of the submit-score API route)

The HTTP method check and JSON parsing are modelled away: `action` takes
the already-parsed request body.  The database call of step 9, which the
spec leaves to the external store, is modelled as succeeding; the fields
of the body that only flow verbatim into the stored metadata map are
omitted from the model.  `submittedType` (the client-asserted mode
string) is carried but, as in the source, never read.
-/
/-- The parsed body of a score submission. -/
structure SubmitScoreRequest where
  token : JsStr
  name : JsStr
  type : Option JsStr
  originalText : Option JsStr
  typedText : Option JsStr
  timeElapsed : Option ℚ
  score : ℚ
  accuracy : ℚ
  cpm : Option ℚ
deriving DecidableEq, Repr
/-- The identity of the response produced by the action. -/
inductive SubmitResponse
  | missingFields
  | invalidSession
  | tooManySubmissions
  | invalidName
  | ipRateLimited
  | nameRateLimited
  | invalidOriginalText
  | invalidTypedText
  | scoreMismatch
  | recordFailed
  | success
deriving DecidableEq, Repr
/-- The four in-memory stores the pipeline reads and writes. -/
structure ServerState where
  sessions : SessionStore
  ipLimits : RateLimitStore
  nameLimits : RateLimitStore
  sessionLimits : RateLimitStore
deriving DecidableEq, Repr
/-- Steps 8–9 of the action: record the submission in the session, then
persist (persistence modelled as succeeding). -/
def finishSubmission (st : ServerState) (now : ℤ) (b : SubmitScoreRequest) :
    SubmitResponse × ServerState :=
  match recordSubmission st.sessions now b.token (some b.name) with
  | (false, sess) => (SubmitResponse.recordFailed, { st with sessions := sess })
  | (true, sess) => (SubmitResponse.success, { st with sessions := sess })
/-- The score-submission action, after method check and JSON parsing:
required-field check, session validation, per-session cadence, name
validation, the two rate limiters, then — only when both texts are
present and truthy — text validation and server-side score
recomputation with the session's recorded mode, and finally the
recording step. -/
def action (st : ServerState) (now : ℤ) (ip : JsStr) (b : SubmitScoreRequest) :
    SubmitResponse × ServerState :=
  if !jsTruthy b.token || !jsTruthy b.name then (SubmitResponse.missingFields, st)
  else
    match validateSession st.sessions now b.token with
    | (none, sess) => (SubmitResponse.invalidSession, { st with sessions := sess })
    | (some session, sess) =>
      let st1 := { st with sessions := sess }
      if !canSubmit session now then (SubmitResponse.tooManySubmissions, st1)
      else if !(validateName b.name).valid then (SubmitResponse.invalidName, st1)
      else
        let ipCheck := checkIpRateLimit st1.ipLimits now ip
        let st2 := { st1 with ipLimits := ipCheck.2 }
        if !ipCheck.1.allowed then (SubmitResponse.ipRateLimited, st2)
        else
          let nameCheck := checkNameRateLimit st2.nameLimits now b.name
          let st3 := { st2 with nameLimits := nameCheck.2 }
          if !nameCheck.1.allowed then (SubmitResponse.nameRateLimited, st3)
          else
            if jsTruthyOpt b.originalText && jsTruthyOpt b.typedText then
              let o := b.originalText.getD []
              let ty := b.typedText.getD []
              if !(validateText o).valid then (SubmitResponse.invalidOriginalText, st3)
              else if !(validateText ty).valid then (SubmitResponse.invalidTypedText, st3)
              else if !(validateScore o ty (jsOrZero b.timeElapsed) b.score
                          b.accuracy (jsOrZero b.cpm) session.type).valid then
                (SubmitResponse.scoreMismatch, st3)
              else finishSubmission st3 now b
            else finishSubmission st3 now b

/-!
## Concrete sample data used by the witnesses
-/
/-- Keys of an association list are pairwise distinct (always true of a
JS `Map`). -/
abbrev keysNodup {α : Type} (m : List (JsStr × α)) : Prop :=
  (m.map Prod.fst).Nodup
def c10Session : Session :=
  { token := [116]
    name := none
    createdAt := 0
    expiresAt := 3600000
    submissionCount := 0
    lastSubmissionAt := none
    type := Mode.short }
def c10Store : SessionStore := [([116], c10Session)]
def c10bSession : Session :=
  { token := [115]
    name := some [110]
    createdAt := 0
    expiresAt := 10
    submissionCount := 2
    lastSubmissionAt := some 5
    type := Mode.venice }
def c10bStore : SessionStore := [([115], c10bSession)]
def c7Store : RateLimitStore := [([105], ⟨10, 100⟩)]
def c8Session : Session :=
  { token := [116]
    name := none
    createdAt := 0
    expiresAt := 100
    submissionCount := 0
    lastSubmissionAt := none
    type := Mode.long }
def c8Store : SessionStore := [([116], c8Session)]
def c1Session : Session :=
  { token := [116]
    name := none
    createdAt := 0
    expiresAt := 3600000
    submissionCount := 0
    lastSubmissionAt := none
    type := Mode.short }
def c1State : ServerState :=
  { sessions := [([116], c1Session)]
    ipLimits := []
    nameLimits := []
    sessionLimits := [] }
def c1Body : SubmitScoreRequest :=
  { token := [116]
    name := [97]
    type := none
    originalText := some [97]
    typedText := some [97]
    timeElapsed := some 60
    score := 1
    accuracy := 100
    cpm := some 1 }
def c2Session : Session :=
  { token := [117]
    name := none
    createdAt := 0
    expiresAt := 3600000
    submissionCount := 0
    lastSubmissionAt := none
    type := Mode.venice }
def c2State : ServerState :=
  { sessions := [([117], c2Session)]
    ipLimits := []
    nameLimits := []
    sessionLimits := [] }
def c2Body : SubmitScoreRequest :=
  { token := [117]
    name := [98]
    type := none
    originalText := none
    typedText := none
    timeElapsed := none
    score := 0
    accuracy := 0
    cpm := none }
/-!
## Association-list lemmas
-/
theorem lookupA_insertA {α : Type} (m : List (JsStr × α)) (k : JsStr) (v : α)
    (k2 : JsStr) :
    lookupA (insertA m k v) k2 = if k2 = k then some v else lookupA m k2 := by
  induction m with
  | nil =>
    by_cases h : k2 = k
    · subst h; simp [insertA, lookupA]
    · have h2 : ¬ k = k2 := fun he => h he.symm
      simp [insertA, lookupA, h, h2]
  | cons head rest ih =>
    obtain ⟨a, w⟩ := head
    by_cases hak : a = k
    · subst hak
      by_cases h : k2 = a
      · subst h; simp [insertA, lookupA]
      · have h2 : ¬ a = k2 := fun he => h he.symm
        simp [insertA, lookupA, h, h2]
    · by_cases h2 : a = k2
      · subst h2
        simp [insertA, lookupA, hak]
      · simp [insertA, lookupA, hak, h2, ih]
theorem lookupA_insertA_self {α : Type} (m : List (JsStr × α)) (k : JsStr) (v : α) :
    lookupA (insertA m k v) k = some v := by
  simp [lookupA_insertA]
theorem lookupA_mem {α : Type} {m : List (JsStr × α)} {k : JsStr} {v : α}
    (h : lookupA m k = some v) : (k, v) ∈ m := by
  induction m with
  | nil => simp [lookupA] at h
  | cons head rest ih =>
    obtain ⟨a, w⟩ := head
    by_cases hak : a = k
    · subst hak
      simp [lookupA] at h
      simp [h]
    · simp [lookupA, hak] at h
      simp [ih h]
theorem lookupA_of_mem_nodup {α : Type} {m : List (JsStr × α)} {k : JsStr} {v : α}
    (hnd : keysNodup m) (h : (k, v) ∈ m) : lookupA m k = some v := by
  induction m with
  | nil => simp at h
  | cons head rest ih =>
    obtain ⟨a, w⟩ := head
    simp only [keysNodup, List.map_cons, List.nodup_cons] at hnd
    rcases List.mem_cons.mp h with h1 | h1
    · cases h1
      simp [lookupA]
    · have hak : a ≠ k := by
        intro he
        subst he
        exact hnd.1 (List.mem_map.mpr ⟨(a, v), h1, rfl⟩)
      simp [lookupA, hak]
      exact ih hnd.2 h1
theorem mem_of_lookupA_filter {α : Type} {m : List (JsStr × α)}
    {f : JsStr × α → Bool} {k : JsStr} {v : α}
    (h : lookupA (m.filter f) k = some v) : (k, v) ∈ m :=
  List.mem_of_mem_filter (lookupA_mem h)
theorem mem_of_mem_eraseA {α : Type} {m : List (JsStr × α)} {k : JsStr}
    {e : JsStr × α} (h : e ∈ eraseA m k) : e ∈ m := by
  induction m with
  | nil => simp [eraseA] at h
  | cons head rest ih =>
    obtain ⟨a, w⟩ := head
    by_cases hak : a = k
    · subst hak
      simp [eraseA] at h
      simp [h]
    · simp [eraseA, hak] at h
      rcases h with h | h
      · simp [h]
      · simp [ih h]
theorem mem_insertA_ne {α : Type} {m : List (JsStr × α)} {k : JsStr} {v : α}
    {k2 : JsStr} {v2 : α} (h : (k2, v2) ∈ insertA m k v) (hne : k2 ≠ k) :
    (k2, v2) ∈ m := by
  induction m with
  | nil =>
    simp [insertA] at h
    exact absurd h.1 hne
  | cons head rest ih =>
    obtain ⟨a, w⟩ := head
    by_cases hak : a = k
    · subst hak
      simp [insertA] at h
      rcases h with h | h
      · exact absurd h.1 hne
      · simp [h]
    · simp [insertA, hak] at h
      rcases h with h | h
      · simp [h]
      · simp [ih h]
/-!
## Claims about the keystroke engine
-/
/-- C3: `keystrokeCount` (i.e. `getKoreanKeystrokes`) returns 3 for a
composite (decomposable) character with a final component, 2 for a
composite character without one, and 1 for any simple character; and in
the aggregate statistics loop a line-break character contributes 0
possible and 0 correct keystrokes. -/
theorem keystrokeCount_values_and_linebreak_zero :
    (∀ u cho jung jong : ℕ, decomposeKorean u = some (cho, jung, jong) →
      getKoreanKeystrokes u = if jong > 0 then 3 else 2)
    ∧ (∀ u : ℕ, decomposeKorean u = none → getKoreanKeystrokes u = 1)
    ∧ possibleAt (some 10) = 0
    ∧ (∀ tc, correctAt (some 10) tc = 0)
    ∧ (∀ oc, correctAt oc (some 10) = 0) := by
  refine ⟨?_, ?_, ?_, ?_, ?_⟩
  · intro u cho jung jong h
    simp [getKoreanKeystrokes, h]
  · intro u h
    simp [getKoreanKeystrokes, h]
  · rfl
  · intro tc
    cases tc with
    | none => rfl
    | some v =>
      by_cases hv : v = 10
      · subst hv; simp [correctAt]
      · simp [correctAt, hv, compareChars]
  · intro oc
    cases oc <;> simp [correctAt]
/-- Witness for C3 at concrete characters (한 = U+D55C decomposes with a
final jamo, 가 = U+AC00 without one, `a` = 97 is simple). -/
theorem keystrokeCount_values_witness :
    getKoreanKeystrokes 0xD55C = 3 ∧ getKoreanKeystrokes 0xAC00 = 2 ∧
    getKoreanKeystrokes 97 = 1 ∧ correctAt (some 10) (some 97) = 0 ∧
    possibleAt (some 10) = 0 := by
  have h := keystrokeCount_values_and_linebreak_zero
  refine ⟨?_, ?_, h.2.1 97 (by decide), h.2.2.2.1 (some 97), h.2.2.1⟩
  · have h1 := h.1 0xD55C 18 0 4 (by decide)
    simpa using h1
  · have h1 := h.1 0xAC00 0 0 0 (by decide)
    simpa using h1
/-- C4: comparing two composite characters awards one correct keystroke
per matching jamo (final only when the reference has one), independently
of full equality; comparing a simple reference character is binary. -/
theorem compareChars_partial_credit :
    (∀ u v ucho ujung ujong vcho vjung vjong : ℕ,
      decomposeKorean u = some (ucho, ujung, ujong) →
      decomposeKorean v = some (vcho, vjung, vjong) →
      (compareChars u v).1 =
        (if ucho = vcho then 1 else 0) + (if ujung = vjung then 1 else 0) +
        (if ujong > 0 then (if ujong = vjong then 1 else 0) else 0)
      ∧ (compareChars u v).2 = 2 + (if ujong > 0 then 1 else 0))
    ∧ (∀ u v : ℕ, decomposeKorean u = none → u ≠ 10 →
      (compareChars u v).1 = if u = v then 1 else 0) := by
  constructor
  · intro u v ucho ujung ujong vcho vjung vjong hu hv
    have hu10 : u ≠ 10 := by
      intro h
      subst h
      rw [show decomposeKorean 10 = none from by decide] at hu
      cases hu
    have hv10 : v ≠ 10 := by
      intro h
      subst h
      rw [show decomposeKorean 10 = none from by decide] at hv
      cases hv
    rw [compareChars, if_neg (by tauto)]
    rw [hu, hv]
    exact ⟨rfl, rfl⟩
  · intro u v hu hu10
    by_cases hv : v = 10
    · subst hv
      rw [compareChars, if_pos (Or.inr rfl)]
      simp [if_neg hu10]
    · rw [compareChars, if_neg (by tauto)]
      rw [hu]
/-- Witness for C4: 한 (U+D55C) against 하 (U+D558) shares initial and
medial but not the final, scoring 2 of 3; simple `a` against `b`. -/
theorem compareChars_partial_credit_witness :
    ((compareChars 0xD55C 0xD558).1 = 2 ∧ (compareChars 0xD55C 0xD558).2 = 3) ∧
    (compareChars 97 98).1 = 0 := by
  have h1 := compareChars_partial_credit.1 0xD55C 0xD558 18 0 4 18 0 0
    (by decide) (by decide)
  have h2 := compareChars_partial_credit.2 97 98 (by decide) (by decide)
  constructor
  · constructor
    · rw [h1.1]; decide
    · rw [h1.2]; decide
  · rw [h2]; decide
/-- C6: the computed score is mode-dependent — the two steady modes
yield the rounded CPM (so `score = cpm` in the returned statistics), the
arcade mode yields `Math.round (accuracy * cpm)` on the one-decimal CPM. -/
theorem score_is_mode_dependent :
    ∀ (originalText typedText : JsStr) (t : ℚ),
    ((calculateTypingStats originalText typedText t Mode.short).score
      = (calculateTypingStats originalText typedText t Mode.short).cpm)
    ∧ ((calculateTypingStats originalText typedText t Mode.long).score
      = (calculateTypingStats originalText typedText t Mode.long).cpm)
    ∧ ((calculateTypingStats originalText typedText t Mode.short).score
      = (jsRound (calculateCPM (totalCorrectKeystrokes originalText typedText) t) : ℚ))
    ∧ ((calculateTypingStats originalText typedText t Mode.long).score
      = (jsRound (calculateCPM (totalCorrectKeystrokes originalText typedText) t) : ℚ))
    ∧ ((calculateTypingStats originalText typedText t Mode.venice).score
      = calculateScore
          (calculateTypingStats originalText typedText t Mode.venice).accuracy
          (calculateCPM (totalCorrectKeystrokes originalText typedText) t)) := by
  intro originalText typedText t
  refine ⟨?_, ?_, ?_, ?_, ?_⟩ <;> simp [calculateTypingStats]
/-!
## Accuracy bounds (C5)
-/
theorem round1_nonneg {q : ℚ} (h0 : 0 ≤ q) : 0 ≤ round1 q := by
  have hl : (0 : ℤ) ≤ jsRound (q * 10) := by
    rw [jsRound]
    exact Rat.le_floor.mpr (by push_cast; linarith)
  rw [round1]
  have : (0 : ℚ) ≤ (jsRound (q * 10) : ℚ) := by exact_mod_cast hl
  linarith
theorem round1_le_100 {q : ℚ} (h1 : q ≤ 100) : round1 q ≤ 100 := by
  have hu : jsRound (q * 10) ≤ 1000 := by
    rw [jsRound]
    by_contra hc
    push_neg at hc
    have h2 : (1001 : ℤ) ≤ Rat.floor (q * 10 + 1/2) := by omega
    have h3 : ((1001 : ℤ) : ℚ) ≤ q * 10 + 1/2 := Rat.le_floor.mp h2
    push_cast at h3
    linarith
  rw [round1]
  have : (jsRound (q * 10) : ℚ) ≤ 1000 := by exact_mod_cast hu
  linarith
theorem correctAt_le_possibleAt (oc tc : Option ℕ) :
    correctAt oc tc ≤ possibleAt oc := by
  cases tc with
  | none => simp [correctAt]
  | some v =>
    by_cases hv : v = 10
    · subst hv; simp [correctAt]
    · cases oc with
      | none => simp [correctAt, hv]
      | some u =>
        simp only [correctAt, if_pos hv]
        by_cases hu : u = 10
        · subst hu
          simp [compareChars, possibleAt]
        · simp only [possibleAt, if_pos hu]
          rw [compareChars, if_neg (by tauto)]
          cases hdu : decomposeKorean u with
          | none =>
            have hk : getKoreanKeystrokes u = 1 := by
              simp [getKoreanKeystrokes, hdu]
            rw [hk]
            show (if u = v then 1 else 0) ≤ 1
            split_ifs <;> simp
          | some p =>
            obtain ⟨a, bb, c⟩ := p
            have hk : getKoreanKeystrokes u = if c > 0 then 3 else 2 := by
              simp [getKoreanKeystrokes, hdu]
            rw [hk]
            cases hdv : decomposeKorean v with
            | none =>
              show (if u = v then 1 else 0) ≤ if c > 0 then 3 else 2
              split_ifs <;> simp
            | some p2 =>
              obtain ⟨d, e, f⟩ := p2
              show ((if a = d then 1 else 0) + (if bb = e then 1 else 0) +
                (if c > 0 then (if c = f then 1 else 0) else 0)) ≤
                if c > 0 then 3 else 2
              split_ifs <;> omega
theorem totalCorrect_le_totalPossible (originalText typedText : JsStr) :
    totalCorrectKeystrokes originalText typedText ≤
      totalPossibleKeystrokes originalText typedText := by
  rw [totalCorrectKeystrokes, totalPossibleKeystrokes]
  exact List.sum_le_sum fun i _ => correctAt_le_possibleAt _ _
theorem calculateAccuracy_bounds {c p : ℕ} (h : c ≤ p) :
    0 ≤ calculateAccuracy c p ∧ calculateAccuracy c p ≤ 100 := by
  rw [calculateAccuracy]
  by_cases hp : p = 0
  · simp [hp]
  · have hp0 : (0 : ℚ) < (p : ℚ) := by
      exact_mod_cast Nat.pos_of_ne_zero hp
    have hc0 : (0 : ℚ) ≤ (c : ℚ) := by positivity
    have hcp : (c : ℚ) ≤ (p : ℚ) := by exact_mod_cast h
    have hdiv0 : (0 : ℚ) ≤ (c : ℚ) / (p : ℚ) * 100 := by positivity
    have hdiv1 : (c : ℚ) / (p : ℚ) * 100 ≤ 100 := by
      have h1 : (c : ℚ) / (p : ℚ) ≤ 1 := (div_le_one hp0).mpr hcp
      linarith
    simp only [if_neg hp]
    exact ⟨round1_nonneg hdiv0, round1_le_100 hdiv1⟩
theorem totalPossible_nil (typedText : JsStr) :
    totalPossibleKeystrokes [] typedText = 0 := by
  rw [totalPossibleKeystrokes]
  apply List.sum_eq_zero
  intro x hx
  rcases List.mem_map.mp hx with ⟨i, _, hi⟩
  rw [← hi]
  rfl
/-- C5: the computed accuracy is correct keystrokes over possible
keystrokes times 100, rounded to one decimal, and 100 when there is
nothing to type; hence it always lies in `[0, 100]` and is exactly 100
on an empty reference text. -/
theorem accuracy_formula_and_range :
    ∀ (originalText typedText : JsStr) (t : ℚ) (mode : Mode),
    ((calculateTypingStats originalText typedText t mode).accuracy
      = calculateAccuracy (totalCorrectKeystrokes originalText typedText)
          (totalPossibleKeystrokes originalText typedText))
    ∧ (∀ c p : ℕ, calculateAccuracy c p
        = if p = 0 then 100 else round1 ((c : ℚ) / (p : ℚ) * 100))
    ∧ 0 ≤ (calculateTypingStats originalText typedText t mode).accuracy
    ∧ (calculateTypingStats originalText typedText t mode).accuracy ≤ 100
    ∧ (originalText = [] →
        (calculateTypingStats originalText typedText t mode).accuracy = 100) := by
  intro originalText typedText t mode
  have hacc : (calculateTypingStats originalText typedText t mode).accuracy
      = calculateAccuracy (totalCorrectKeystrokes originalText typedText)
          (totalPossibleKeystrokes originalText typedText) := rfl
  have hb := calculateAccuracy_bounds (totalCorrect_le_totalPossible originalText typedText)
  refine ⟨hacc, fun c p => rfl, ?_, ?_, ?_⟩
  · rw [hacc]; exact hb.1
  · rw [hacc]; exact hb.2
  · intro hnil
    subst hnil
    rw [hacc, totalPossible_nil, calculateAccuracy]
    simp
/-- Witness for C5: empty reference text gives accuracy exactly 100. -/
theorem accuracy_formula_and_range_witness :
    (calculateTypingStats [] [97] 60 Mode.short).accuracy = 100 ∧
    0 ≤ (calculateTypingStats [] [97] 60 Mode.short).accuracy ∧
    (calculateTypingStats [] [97] 60 Mode.short).accuracy ≤ 100 := by
  have h := accuracy_formula_and_range [] [97] 60 Mode.short
  exact ⟨h.2.2.2.2 rfl, h.2.2.1, h.2.2.2.1⟩
/-!
## Name validation (C9)
-/
/-- C9 counterexample: a name of sixteen `a`s has display weight exactly
16 — it *reaches* the 16-unit cap — yet `validateName` accepts it,
because the code rejects only weights strictly above 16. -/
theorem validateName_weight16_accepted :
    calculateNameLength (jsTrim (List.replicate 16 97)) = 16 ∧
    (validateName (List.replicate 16 97)).valid = true := by decide
/-- C9 (amended): `validateName` accepts a name iff it is non-empty
after trimming, every character of the trimmed name is in the allowed
class (Hangul syllables, ASCII letters and digits, whitespace, dot,
hyphen), and the trimmed name's display weight (wide = 2, narrow = 1)
does not *exceed* the cap of 16; it rejects every other name. -/
theorem validateName_accept_iff :
    ∀ name : JsStr,
    (validateName name).valid = true ↔
      (jsTrim name ≠ [] ∧ (jsTrim name).all isValidNameChar = true ∧
       calculateNameLength (jsTrim name) ≤ 16) := by
  intro name
  have hnil : name = [] → jsTrim name = [] := by
    intro h; subst h; rfl
  have h1iff : (name = [] ∨ jsTrim name = []) ↔ jsTrim name = [] :=
    ⟨fun h => h.elim hnil id, Or.inr⟩
  simp only [validateName, h1iff]
  split_ifs with h1 h2 h3 <;> simp_all [jsTruthy, Nat.not_lt]
/-!
## Session recording (C10)
-/
/-- C10 counterexample: when the *first* successful submission supplies
no name, the session's name is still unset afterwards, and a name
supplied on the *second* submission is then recorded — so the display
name is not fixed on the very first successful submission, and a later
name is not ignored. -/
theorem recordSubmission_second_submission_sets_name :
    (recordSubmission c10Store 1000 [116] none).1 = true ∧
    (lookupA (recordSubmission c10Store 1000 [116] none).2 [116]).map
      Session.name = some none ∧
    (lookupA (recordSubmission c10Store 1000 [116] none).2 [116]).map
      Session.submissionCount = some 1 ∧
    (lookupA (recordSubmission
        (recordSubmission c10Store 1000 [116] none).2 3000 [116]
        (some [98])).2 [116]).map Session.name = some (some [98]) := by
  decide
/-- C10 (amended): `recordSubmission` fails iff the token is not in the
session store (leaving it unchanged); otherwise it increments the
submission count, stamps the last-submission time, and sets the display
name exactly when a non-empty name is supplied and the session has no
name yet — in particular a name, once set, is never changed. -/
theorem recordSubmission_spec :
    ∀ (st : SessionStore) (now : ℤ) (token : JsStr) (name : Option JsStr),
    ((recordSubmission st now token name).1 = false ↔ lookupA st token = none)
    ∧ (lookupA st token = none → (recordSubmission st now token name).2 = st)
    ∧ (∀ s, lookupA st token = some s →
        (recordSubmission st now token name).1 = true ∧
        lookupA (recordSubmission st now token name).2 token =
          some { s with
                  submissionCount := s.submissionCount + 1
                  lastSubmissionAt := some now
                  name := if jsTruthyOpt name && !jsTruthyOpt s.name then name
                          else s.name }) := by
  intro st now token name
  refine ⟨?_, ?_, ?_⟩
  · cases h : lookupA st token <;> simp [recordSubmission, h]
  · intro h
    simp [recordSubmission, h]
  · intro s h
    simp only [recordSubmission, h]
    refine ⟨trivial, ?_⟩
    rw [lookupA_insertA_self]
    by_cases hc : (jsTruthyOpt name && !jsTruthyOpt s.name) = true
    · simp [hc]
    · simp [hc]
/-- Witness for C10's amended theorem at a concrete store: the session
already has a name, so a newly supplied one is ignored. -/
theorem recordSubmission_spec_witness :
    (recordSubmission c10bStore 7 [115] (some [109])).1 = true ∧
    lookupA (recordSubmission c10bStore 7 [115] (some [109])).2 [115] =
      some { c10bSession with
              submissionCount := c10bSession.submissionCount + 1
              lastSubmissionAt := some 7
              name := if jsTruthyOpt (some [109]) && !jsTruthyOpt c10bSession.name
                      then some [109] else c10bSession.name } :=
  (recordSubmission_spec c10bStore 7 [115] (some [109])).2.2 c10bSession (by decide)
/-!
## Rate limiter (C7)
-/
/-- C7: per-call semantics of `checkLimit` — create/reset with count 1
and allow when the bucket is missing or its window has elapsed; deny
without touching the store when the count is at or above the limit;
increment and allow otherwise.  Consequently a denied call leaves the
store unchanged, and when every pre-existing bucket for the key respects
a positive limit, the bucket after the call still does. -/
theorem checkLimit_semantics_and_invariant :
    ∀ (m : RateLimitStore) (now : ℤ) (key : JsStr) (limit : ℕ) (window : ℤ),
    (lookupA m key = none →
      (checkLimit m now key limit window).1.allowed = true ∧
      lookupA (checkLimit m now key limit window).2 key =
        some ⟨1, now + window⟩)
    ∧ (∀ e, lookupA m key = some e → now > e.resetAt →
      (checkLimit m now key limit window).1.allowed = true ∧
      lookupA (checkLimit m now key limit window).2 key =
        some ⟨1, now + window⟩)
    ∧ (∀ e, lookupA m key = some e → ¬ now > e.resetAt → e.count ≥ limit →
      (checkLimit m now key limit window).1.allowed = false ∧
      (checkLimit m now key limit window).2 = m)
    ∧ (∀ e, lookupA m key = some e → ¬ now > e.resetAt → e.count < limit →
      (checkLimit m now key limit window).1.allowed = true ∧
      lookupA (checkLimit m now key limit window).2 key =
        some ⟨e.count + 1, e.resetAt⟩)
    ∧ ((checkLimit m now key limit window).1.allowed = false →
      (checkLimit m now key limit window).2 = m)
    ∧ (1 ≤ limit → (∀ e, lookupA m key = some e → e.count ≤ limit) →
      ∀ e2, lookupA (checkLimit m now key limit window).2 key = some e2 →
        e2.count ≤ limit) := by
  intro m now key limit window
  refine ⟨?_, ?_, ?_, ?_, ?_, ?_⟩
  · intro h
    simp [checkLimit, h, lookupA_insertA_self]
  · intro e h hw
    simp [checkLimit, h, hw, lookupA_insertA_self]
  · intro e h hw hc
    simp [checkLimit, h, hw, hc]
  · intro e h hw hc
    simp [checkLimit, h, hw, Nat.not_le_of_lt hc, lookupA_insertA_self]
  · intro hdenied
    cases h : lookupA m key with
    | none =>
      rw [checkLimit, h] at hdenied ⊢
      simp at hdenied
    | some e =>
      rw [checkLimit, h] at hdenied ⊢
      by_cases hw : now > e.resetAt
      · simp [hw] at hdenied
      · by_cases hc : e.count ≥ limit
        · simp [hw, hc]
        · simp [hw, hc] at hdenied
  · intro hlim hpre e2 h2
    cases h : lookupA m key with
    | none =>
      rw [checkLimit, h] at h2
      simp only [lookupA_insertA_self] at h2
      cases h2
      simpa using hlim
    | some e =>
      rw [checkLimit, h] at h2
      by_cases hw : now > e.resetAt
      · simp only [if_pos hw, lookupA_insertA_self] at h2
        cases h2
        simpa using hlim
      · by_cases hc : e.count ≥ limit
        · simp only [if_neg hw, if_pos hc] at h2
          rw [h] at h2
          cases h2
          exact hpre e2 h
        · simp only [if_neg hw, if_neg hc, lookupA_insertA_self] at h2
          cases h2
          simp only []
          omega
/-- Witness for C7 at a concrete store: a bucket at its limit inside its
window is denied and the store is unchanged. -/
theorem checkLimit_semantics_witness :
    ((checkLimit c7Store 50 [105] 10 60000).1.allowed = false ∧
      (checkLimit c7Store 50 [105] 10 60000).2 = c7Store) ∧
    ((checkLimit [] 0 [106] 10 60000).1.allowed = true ∧
      lookupA (checkLimit [] 0 [106] 10 60000).2 [106] = some ⟨1, 60000⟩) := by
  constructor
  · exact (checkLimit_semantics_and_invariant c7Store 50 [105] 10 60000).2.2.1
      ⟨10, 100⟩ (by decide) (by decide) (by decide)
  · exact (checkLimit_semantics_and_invariant [] 0 [106] 10 60000).1 (by decide)
/-!
## Session manager invariants (C8)
-/
/-- C8: `validateSession` never returns a session whose expiry is in the
past — when the stored session is past expiry it is deleted and
not-found is reported — and no store operation (`validateSession`,
`recordSubmission`, `createSession` with a fresh token, the expiry
sweep) ever changes the practice mode of a stored session. -/
theorem validateSession_and_mode_invariant :
    ∀ (st : SessionStore) (now : ℤ) (token : JsStr),
    (∀ s st2, validateSession st now token = (some s, st2) →
      now ≤ s.expiresAt ∧ st2 = st ∧ lookupA st token = some s)
    ∧ (∀ s, lookupA st token = some s → now > s.expiresAt →
      validateSession st now token = (none, eraseA st token))
    ∧ (keysNodup st →
        (∀ token2 s s2, lookupA st token2 = some s →
          lookupA (validateSession st now token).2 token2 = some s2 →
          s2.type = s.type)
        ∧ (∀ (name : Option JsStr) token2 s s2, lookupA st token2 = some s →
          lookupA (recordSubmission st now token name).2 token2 = some s2 →
          s2.type = s.type)
        ∧ (∀ mode : Mode, lookupA st token = none →
          ∀ token2 s s2, lookupA st token2 = some s →
          lookupA (createSession st now token mode).2 token2 = some s2 →
          s2.type = s.type)
        ∧ (∀ token2 s s2, lookupA st token2 = some s →
          lookupA (cleanupExpiredSessions st now) token2 = some s2 →
          s2 = s)) := by
  intro st now token
  have cleanup_pres : keysNodup st → ∀ token2 s s2, lookupA st token2 = some s →
      lookupA (cleanupExpiredSessions st now) token2 = some s2 → s2 = s := by
    intro hnd token2 s s2 h1 h2
    have hmem : (token2, s2) ∈ st :=
      List.mem_of_mem_filter (lookupA_mem h2)
    have h4 := lookupA_of_mem_nodup hnd hmem
    rw [h1] at h4
    injection h4 with h3
    exact h3.symm
  refine ⟨?_, ?_, ?_⟩
  · intro s st2 heq
    cases h : lookupA st token with
    | none =>
      simp only [validateSession, h] at heq
      injection heq with hfst hsnd
      simp at hfst
    | some s0 =>
      simp only [validateSession, h] at heq
      by_cases hw : now > s0.expiresAt
      · rw [if_pos hw] at heq
        injection heq with hfst hsnd
        simp at hfst
      · rw [if_neg hw] at heq
        injection heq with hfst hsnd
        injection hfst with hs2
        subst hs2
        exact ⟨le_of_not_lt hw, hsnd.symm, rfl⟩
  · intro s h hexp
    simp [validateSession, h, hexp]
  · intro hnd
    refine ⟨?_, ?_, ?_, cleanup_pres hnd⟩
    · intro token2 s s2 h1 h2
      cases h : lookupA st token with
      | none =>
        simp only [validateSession, h] at h2
        rw [h1] at h2
        injection h2 with h3
        rw [← h3]
      | some s0 =>
        simp only [validateSession, h] at h2
        by_cases hw : now > s0.expiresAt
        · rw [if_pos hw] at h2
          have hmem : (token2, s2) ∈ st := mem_of_mem_eraseA (lookupA_mem h2)
          have h4 := lookupA_of_mem_nodup hnd hmem
          rw [h1] at h4
          injection h4 with h3
          rw [h3]
        · rw [if_neg hw] at h2
          rw [h1] at h2
          injection h2 with h3
          rw [← h3]
    · intro name token2 s s2 h1 h2
      cases h : lookupA st token with
      | none =>
        simp only [recordSubmission, h] at h2
        rw [h1] at h2
        injection h2 with h3
        rw [← h3]
      | some s0 =>
        simp only [recordSubmission, h] at h2
        rw [lookupA_insertA] at h2
        by_cases ht : token2 = token
        · rw [if_pos ht] at h2
          subst ht
          rw [h] at h1
          injection h1 with h3
          subst h3
          injection h2 with h4
          rw [← h4]
          split_ifs <;> rfl
        · rw [if_neg ht] at h2
          rw [h1] at h2
          injection h2 with h3
          rw [← h3]
    · intro mode hfresh token2 s s2 h1 h2
      rw [createSession] at h2
      have hmem : (token2, s2) ∈ insertA st token _ :=
        List.mem_of_mem_filter (lookupA_mem h2)
      by_cases ht : token2 = token
      · subst ht
        rw [hfresh] at h1
        cases h1
      · have hmem2 : (token2, s2) ∈ st := mem_insertA_ne hmem ht
        have h4 := lookupA_of_mem_nodup hnd hmem2
        rw [h1] at h4
        injection h4 with h3
        rw [h3]
/-- Witness for C8 at a concrete store: a live session is returned with
its expiry in the future, an expired one is deleted, and recording a
submission leaves the practice mode unchanged. -/
theorem validateSession_and_mode_invariant_witness :
    ((50 : ℤ) ≤ c8Session.expiresAt ∧ c8Store = c8Store ∧
      lookupA c8Store [116] = some c8Session) ∧
    validateSession c8Store 200 [116] = (none, eraseA c8Store [116]) ∧
    ({ c8Session with
        submissionCount := 1
        lastSubmissionAt := some 50
        name := some [97] } : Session).type = c8Session.type := by
  refine ⟨?_, ?_, ?_⟩
  · exact (validateSession_and_mode_invariant c8Store 50 [116]).1 c8Session
      c8Store (by decide)
  · exact (validateSession_and_mode_invariant c8Store 200 [116]).2.1 c8Session
      (by decide) (by decide)
  · exact ((validateSession_and_mode_invariant c8Store 50 [116]).2.2
      (by decide)).2.1 (some [97]) [116] c8Session
      { c8Session with
          submissionCount := 1
          lastSubmissionAt := some 50
          name := some [97] } (by decide) (by decide)
/-!
## Score validation (C1, C2)
-/
theorem isEmpty_append_eq {γ : Type} (a b : List γ) :
    (a ++ b).isEmpty = (a.isEmpty && b.isEmpty) := by
  cases a <;> simp [List.isEmpty]
theorem isEmpty_ite_single {γ : Type} (c : Prop) [Decidable c] (x : γ) :
    (if c then [x] else ([] : List γ)).isEmpty = !(decide c) := by
  split_ifs with h <;> simp [h]
/-- `validateScore` reports valid exactly when the time floor, the two
absolute range checks and the three tolerance checks all pass. -/
theorem validateScore_valid_iff
    (originalText typedText : JsStr)
    (timeElapsed submittedScore submittedAccuracy submittedCPM : ℚ)
    (mode : Mode) :
    (validateScore originalText typedText timeElapsed submittedScore
        submittedAccuracy submittedCPM mode).valid = true ↔
      (¬ timeElapsed < 1)
      ∧ (0 ≤ submittedAccuracy ∧ submittedAccuracy ≤ 100)
      ∧ (0 ≤ submittedCPM ∧ submittedCPM ≤ 2000)
      ∧ |submittedAccuracy - (calculateTypingStats originalText typedText
          timeElapsed mode).accuracy| ≤ 1
      ∧ |submittedCPM - (calculateTypingStats originalText typedText
          timeElapsed mode).cpm| ≤
          (calculateTypingStats originalText typedText timeElapsed mode).cpm * (1/100)
      ∧ |submittedScore - (calculateTypingStats originalText typedText
          timeElapsed mode).score| ≤
          (calculateTypingStats originalText typedText timeElapsed mode).score * (1/100) := by
  rw [validateScore]
  simp only [isEmpty_append_eq, isEmpty_ite_single, Bool.and_eq_true,
    Bool.not_eq_true', decide_eq_false_iff_not, not_or, not_lt, gt_iff_lt]
  tauto
theorem validateSession_some_elim {st : SessionStore} {now : ℤ} {token : JsStr}
    {s : Session} {st2 : SessionStore}
    (h : validateSession st now token = (some s, st2)) :
    lookupA st token = some s ∧ st2 = st ∧ now ≤ s.expiresAt := by
  cases hl : lookupA st token with
  | none => simp [validateSession, hl] at h
  | some s0 =>
    simp only [validateSession, hl] at h
    by_cases hw : now > s0.expiresAt
    · rw [if_pos hw] at h
      injection h with hfst hsnd
      simp at hfst
    · rw [if_neg hw] at h
      injection h with hfst hsnd
      injection hfst with hs
      subst hs
      exact ⟨rfl, hsnd.symm, le_of_not_lt hw⟩
theorem recordSubmission_found {st : SessionStore} {now : ℤ} {token : JsStr}
    {s : Session} (name : Option JsStr) (h : lookupA st token = some s) :
    (recordSubmission st now token name).1 = true := by
  simp [recordSubmission, h]
/-- C1: whenever a submission carrying both a (truthy) reference text
and a (truthy) typed text is accepted, the score-verification step has
recomputed the statistics with the session's recorded mode and the
supplied elapsed time, and the submitted accuracy, CPM and score were
within tolerance of the recomputed values (±1 absolute for accuracy,
±1% of the recomputed value for CPM and score) and within the absolute
ranges `[0, 100]` and `[0, 2000]`; moreover the whole action never reads
the client-asserted mode field. -/
theorem scoreVerification_uses_recorded_mode
    (st : ServerState) (now : ℤ) (ip : JsStr) (b : SubmitScoreRequest)
    (o ty : JsStr)
    (ho : b.originalText = some o) (ho2 : o ≠ [])
    (ht : b.typedText = some ty) (ht2 : ty ≠ [])
    (hs : (action st now ip b).1 = SubmitResponse.success) :
    (∃ s : Session, lookupA st.sessions b.token = some s ∧
      ((0 ≤ b.accuracy ∧ b.accuracy ≤ 100) ∧
       (0 ≤ jsOrZero b.cpm ∧ jsOrZero b.cpm ≤ 2000) ∧
       |b.accuracy - (calculateTypingStats o ty (jsOrZero b.timeElapsed)
          s.type).accuracy| ≤ 1 ∧
       |jsOrZero b.cpm - (calculateTypingStats o ty (jsOrZero b.timeElapsed)
          s.type).cpm| ≤
         (calculateTypingStats o ty (jsOrZero b.timeElapsed) s.type).cpm * (1/100) ∧
       |b.score - (calculateTypingStats o ty (jsOrZero b.timeElapsed)
          s.type).score| ≤
         (calculateTypingStats o ty (jsOrZero b.timeElapsed) s.type).score * (1/100)))
    ∧ (∀ t2 : Option JsStr,
        action st now ip { b with type := t2 } = action st now ip b) := by
  constructor
  · rw [action] at hs
    split at hs
    · simp at hs
    · split at hs
      next heq => simp at hs
      next session sess heq =>
        split at hs
        · simp at hs
        · split at hs
          · simp at hs
          · split at hs
            · -- both texts present: the remaining checks
              dsimp only [] at hs
              split at hs
              · simp at hs
              · split at hs
                · simp at hs
                · split at hs
                  · simp at hs
                  · split at hs
                    · simp at hs
                    · split at hs
                      next hvalid =>
                        simp at hs
                      next hvalid =>
                        obtain ⟨hlook, hsess, hexp⟩ := validateSession_some_elim heq
                        refine ⟨session, hlook, ?_⟩
                        have hvalid2 : (validateScore (b.originalText.getD [])
                            (b.typedText.getD []) (jsOrZero b.timeElapsed) b.score
                            b.accuracy (jsOrZero b.cpm) session.type).valid = true := by
                          simpa using hvalid
                        rw [ho, ht] at hvalid2
                        simp only [Option.getD_some] at hvalid2
                        have hv := (validateScore_valid_iff o ty
                          (jsOrZero b.timeElapsed) b.score b.accuracy
                          (jsOrZero b.cpm) session.type).mp hvalid2
                        exact ⟨hv.2.1, hv.2.2.1, hv.2.2.2.1, hv.2.2.2.2.1,
                          hv.2.2.2.2.2⟩
            · next htexts =>
              exfalso
              apply htexts
              simp [ho, ht, jsTruthyOpt, jsTruthy, ho2, ht2]
  · intro t2
    cases b
    rfl
/-- Witness for C1: a concrete honest submission (one correct `a` in 60
seconds) is accepted, and the conclusion holds for it. -/
theorem scoreVerification_uses_recorded_mode_witness :
    (∃ s : Session, lookupA c1State.sessions c1Body.token = some s ∧
      ((0 ≤ c1Body.accuracy ∧ c1Body.accuracy ≤ 100) ∧
       (0 ≤ jsOrZero c1Body.cpm ∧ jsOrZero c1Body.cpm ≤ 2000) ∧
       |c1Body.accuracy - (calculateTypingStats [97] [97]
          (jsOrZero c1Body.timeElapsed) s.type).accuracy| ≤ 1 ∧
       |jsOrZero c1Body.cpm - (calculateTypingStats [97] [97]
          (jsOrZero c1Body.timeElapsed) s.type).cpm| ≤
         (calculateTypingStats [97] [97] (jsOrZero c1Body.timeElapsed)
           s.type).cpm * (1/100) ∧
       |c1Body.score - (calculateTypingStats [97] [97]
          (jsOrZero c1Body.timeElapsed) s.type).score| ≤
         (calculateTypingStats [97] [97] (jsOrZero c1Body.timeElapsed)
           s.type).score * (1/100)))
    ∧ (∀ t2 : Option JsStr,
        action c1State 0 [105] { c1Body with type := t2 } =
          action c1State 0 [105] c1Body) :=
  scoreVerification_uses_recorded_mode c1State 0 [105] c1Body [97] [97]
    rfl (by decide) rfl (by decide) (by with_unfolding_all decide)
/-- C2: when the reference text or the typed text is absent or empty,
the pipeline skips text validation and the score recomputation entirely:
once the required fields, session, cadence, name and both rate-limit
steps pass, the submission reaches the recording step and succeeds for
*every* client-supplied score, accuracy and CPM, whatever the session's
mode. -/
theorem textless_submission_skips_recomputation
    (st : ServerState) (now : ℤ) (ip : JsStr) (b : SubmitScoreRequest)
    (s : Session) (sess : SessionStore)
    (htok : jsTruthy b.token = true) (hname : jsTruthy b.name = true)
    (htexts : (jsTruthyOpt b.originalText && jsTruthyOpt b.typedText) = false)
    (hvs : validateSession st.sessions now b.token = (some s, sess))
    (hcan : canSubmit s now = true)
    (hvalidname : (validateName b.name).valid = true)
    (hip : (checkIpRateLimit st.ipLimits now ip).1.allowed = true)
    (hnr : (checkNameRateLimit st.nameLimits now b.name).1.allowed = true) :
    ∀ score2 accuracy2 cpm2,
      (action st now ip
        { b with score := score2, accuracy := accuracy2, cpm := cpm2 }).1 =
        SubmitResponse.success := by
  intro score2 accuracy2 cpm2
  obtain ⟨hlook, hsess, hexp⟩ := validateSession_some_elim hvs
  subst hsess
  cases b with
  | mk token name type origT typedT timeE sc acc cpm =>
    simp only [action, finishSubmission, recordSubmission] at *
    simp only [htok, hname, hvs, hcan, hvalidname, hip, hnr, htexts, hlook,
      Bool.not_true, Bool.not_false, Bool.or_self, Bool.or_false,
      Bool.false_or, if_true, if_false]
    simp
/-- Witness for C2: with no texts in the body, a submission with absurd
score/accuracy/CPM values still reaches the recording step and succeeds. -/
theorem textless_submission_skips_recomputation_witness :
    (action c2State 0 [104]
      { c2Body with score := 999999, accuracy := 12345, cpm := some 54321 }).1 =
      SubmitResponse.success :=
  textless_submission_skips_recomputation c2State 0 [104] c2Body c2Session
    c2State.sessions (by decide) (by decide) (by decide) (by decide)
    (by decide) (by decide) (by decide) (by decide) 999999 12345 (some 54321)
